import Mathlib

/-!
Verification development for the aiodbus D-Bus binding layer.

The Python sources under src/aiodbus are shallowly embedded below:
pure decision logic becomes Lean functions, stateful code becomes
explicit state passing, fallible code returns Except or Option, and
side effects (logging, sending a reply) are recorded in explicit
result records.  The D-Bus wire codec and the signal match-rule
evaluation live in the native _sdbus C extension, which is not part
of the Python source tree; those two components are modelled from
the specification text and are marked as such in their doc comments.
-/

set_option maxHeartbeats 1000000

/-- Python exception kinds that the embedded code can raise. -/
inductive PyError where
  | attributeError
  | typeError
  | valueError
  | lookupError
  | runtimeError (message : String)
deriving DecidableEq, Repr

/-! ## exceptions.py: the D-Bus method-error factory -/

/-- The error names registered by the DbusMethodError subclass
definitions in exceptions.py; each subclass declaration runs the
registration hook which stores the class into
DbusMethodError.subclasses under its name. -/
def registeredErrorNames : List String :=
  [ "org.freedesktop.DBus.Error.Failed"
  , "org.freedesktop.DBus.Error.NoMemory"
  , "org.freedesktop.DBus.Error.ServiceUnknown"
  , "org.freedesktop.DBus.Error.NameHasNoOwner"
  , "org.freedesktop.DBus.Error.NoReply"
  , "org.freedesktop.DBus.Error.IOError"
  , "org.freedesktop.DBus.Error.BadAddress"
  , "org.freedesktop.DBus.Error.NotSupported"
  , "org.freedesktop.DBus.Error.LimitsExceeded"
  , "org.freedesktop.DBus.Error.AccessDenied"
  , "org.freedesktop.DBus.Error.AuthFailed"
  , "org.freedesktop.DBus.Error.NoServer"
  , "org.freedesktop.DBus.Error.Timeout"
  , "org.freedesktop.DBus.Error.NoNetwork"
  , "org.freedesktop.DBus.Error.AddressInUse"
  , "org.freedesktop.DBus.Error.Disconnected"
  , "org.freedesktop.DBus.Error.InvalidArgs"
  , "org.freedesktop.DBus.Error.FileNotFound"
  , "org.freedesktop.DBus.Error.FileExists"
  , "org.freedesktop.DBus.Error.UnknownMethod"
  , "org.freedesktop.DBus.Error.UnknownObject"
  , "org.freedesktop.DBus.Error.UnknownInterface"
  , "org.freedesktop.DBus.Error.UnknownProperty"
  , "org.freedesktop.DBus.Error.PropertyReadOnly"
  , "org.freedesktop.DBus.Error.UnixProcessIdUnknown"
  , "org.freedesktop.DBus.Error.InvalidSignature"
  , "org.freedesktop.DBus.Error.InvalidFileContent"
  , "org.freedesktop.DBus.Error.InconsistentMessage"
  , "org.freedesktop.DBus.Error.MatchRuleNotFound"
  , "org.freedesktop.DBus.Error.MatchRuleInvalid"
  , "org.freedesktop.DBus.Error.InteractiveAuthorizationRequired" ]

/-- An instance of DbusMethodError (or one of its registered
subclasses).  registeredClass records which registered subclass the
instance belongs to (none means the generic base class). -/
structure DbusMethodError where
  registeredClass : Option String
  error_name : String
  error_message : Option String
deriving DecidableEq, Repr

/-- Embedding of DbusMethodError.create from exceptions.py.  The
factory looks the name up in the subclass registry.  When a subclass
is registered, its constructor already has the class attribute
error_name, and the constructor evaluates: name or cls.error_name.
When no subclass is registered the base constructor is used; the
base class has only an annotation for error_name, so evaluating
self.error_name on a falsy name raises AttributeError. -/
def DbusMethodError.create (name : String) (message : Option String) :
    Except PyError DbusMethodError :=
  match registeredErrorNames.find? (fun r => r == name) with
  | some registered =>
      Except.ok
        { registeredClass := some registered
        , error_name := if name = "" then registered else name
        , error_message := message }
  | none =>
      if name = "" then
        Except.error PyError.attributeError
      else
        Except.ok
          { registeredClass := none
          , error_name := name
          , error_message := message }

/-- The possible outcomes of SdBus raise_on_error. -/
inductive RaiseOnErrorResult where
  | ok
  | raisedMethodError (e : DbusMethodError)
  | raisedPyError (e : PyError)
deriving DecidableEq, Repr

/-- Embedding of SdBus raise_on_error from bus/sdbus.py: when the
reply carries an error pair (name, message), the factory result is
raised; otherwise the call proceeds normally. -/
def SdBus.raise_on_error (err : Option (String × Option String)) :
    RaiseOnErrorResult :=
  match err with
  | none => RaiseOnErrorResult.ok
  | some (name, message) =>
      match DbusMethodError.create name message with
      | Except.ok e => RaiseOnErrorResult.raisedMethodError e
      | Except.error pe => RaiseOnErrorResult.raisedPyError pe

/-! ## bus/sdbus.py: SdBus.call_method -/

/-- The observable actions call_method performs on the message and
the bus, in order. -/
inductive CallAction where
  | newMethodCallMessage
  | appendData
  | setExpectReplyFalse
  | send
  | awaitReply
deriving DecidableEq, Repr

/-- The reply a call may receive: an optional error pair plus the
decoded contents. -/
structure ReplyMessage (α : Type) where
  error : Option (String × Option String)
  contents : List α

/-- Result of call_method as seen by the caller. -/
inductive CallOutcome (α : Type) where
  | returned (values : List α)
  | raisedMethodError (e : DbusMethodError)
  | raisedPyError (e : PyError)

/-- Embedding of SdBus.call_method from bus/sdbus.py.  A message is
created, data appended when args are given; with no_reply the
expect_reply flag is cleared, the message sent and the empty tuple
returned without awaiting; otherwise the reply is awaited, checked
for errors and its contents returned. -/
def SdBus.call_method (hasArgs : Bool) (no_reply : Bool)
    (reply : ReplyMessage α) : List CallAction × CallOutcome α :=
  let pre := CallAction.newMethodCallMessage ::
    (if hasArgs then [CallAction.appendData] else [])
  if no_reply then
    (pre ++ [CallAction.setExpectReplyFalse, CallAction.send],
      CallOutcome.returned [])
  else
    (pre ++ [CallAction.awaitReply],
      match SdBus.raise_on_error reply.error with
      | RaiseOnErrorResult.ok => CallOutcome.returned reply.contents
      | RaiseOnErrorResult.raisedMethodError e =>
          CallOutcome.raisedMethodError e
      | RaiseOnErrorResult.raisedPyError e => CallOutcome.raisedPyError e)

/-! ## bus/sdbus.py: the inbound method and signal handlers -/

/-- A Python value as far as the reply-append logic distinguishes
them: a tuple of values, or any other value (abstracted by a tag). -/
inductive PyValue where
  | tupleV (elems : List PyValue)
  | atomV (tag : String)

/-- An exception escaping a handler callback: either an intentional
MethodCallError carrying a D-Bus error name, or any other
exception. -/
inductive HandlerExc where
  | methodCallError (name : String) (message : Option String)
  | otherExc (info : String)
deriving DecidableEq, Repr

/-- Whether the exception is a MethodCallError. -/
def HandlerExc.isMethodCallError : HandlerExc → Bool
  | HandlerExc.methodCallError _ _ => true
  | HandlerExc.otherExc _ => false

/-- The error name used for the error reply: a MethodCallError
carries its own name; any other exception is converted to the
generic failure error. -/
def callFailedErrorName : String := "org.freedesktop.DBus.Error.Failed"

/-- Name placed into the error reply for an escaped exception. -/
def HandlerExc.replyName : HandlerExc → String
  | HandlerExc.methodCallError name _ => name
  | HandlerExc.otherExc _ => callFailedErrorName

/-- Message placed into the error reply: error_message or the empty
string when it is missing or empty. -/
def HandlerExc.replyMessage : HandlerExc → String
  | HandlerExc.methodCallError _ message => message.getD ""
  | HandlerExc.otherExc _ => ""

/-- What got appended to the reply message body. -/
inductive ReplyAppend where
  | appendedMany (vals : List PyValue)
  | appendedOne (val : PyValue)

/-- Embedding of the reply-body append logic of the method handler
in bus/sdbus.py: a tuple result is appended as multiple top-level
values, falling back to a single struct value when that raises
TypeError; a non-tuple non-None result is appended as one value; a
None result appends nothing.  multiAppendRaisesTypeError records
whether the unpacked append raises TypeError for this result
signature. -/
def appendReplyData (reply_data : Option PyValue)
    (multiAppendRaisesTypeError : Bool) : Option ReplyAppend :=
  match reply_data with
  | some (PyValue.tupleV elems) =>
      if multiAppendRaisesTypeError then
        some (ReplyAppend.appendedOne (PyValue.tupleV elems))
      else
        some (ReplyAppend.appendedMany elems)
  | some v => some (ReplyAppend.appendedOne v)
  | none => none

/-- A reply sent back over the bus by the method handler. -/
inductive SentReply where
  | normal (appended : Option ReplyAppend)
  | errorReply (name : String) (message : String)

/-- The observable outcome of one method-handler run: what was
logged and what reply (if any) was sent. -/
structure MethodHandlerRun where
  logged : Option HandlerExc
  sentReply : Option SentReply

/-- Embedding of SdBusInterfaceBuilder method handler from
bus/sdbus.py.  On callback success a reply is built and sent only
when a reply is expected.  On an escaped exception, a
MethodCallError is used as the error reply unchanged and without
logging, while any other exception is logged and replaced by the
generic failure error; when no reply is expected the error reply is
skipped. -/
def SdBusInterfaceBuilder.method_handler (expectReply : Bool)
    (callbackResult : Except HandlerExc (Option PyValue))
    (multiAppendRaisesTypeError : Bool) : MethodHandlerRun :=
  match callbackResult with
  | Except.ok data =>
      if expectReply then
        { logged := none
        , sentReply := some (SentReply.normal
            (appendReplyData data multiAppendRaisesTypeError)) }
      else
        { logged := none, sentReply := none }
  | Except.error exc =>
      let logged := if exc.isMethodCallError then none else some exc
      if expectReply then
        { logged := logged
        , sentReply := some (SentReply.errorReply exc.replyName
            exc.replyMessage) }
      else
        { logged := logged, sentReply := none }

/-- The observable outcome of one signal-handler run. -/
structure SignalHandlerRun where
  logged : Option HandlerExc
  raised : Option HandlerExc
deriving DecidableEq, Repr

/-- Embedding of SdBus signal handler from bus/sdbus.py: the
subscriber callback runs under the current-message context; any
exception it raises is caught and logged, and the handler returns
normally. -/
def SdBus.signal_handler (callbackResult : Except HandlerExc Unit) :
    SignalHandlerRun :=
  match callbackResult with
  | Except.ok _ => { logged := none, raised := none }
  | Except.error e => { logged := some e, raised := none }

/-! ## bus/message.py: the current-message context variable -/

/-- Token returned by setting a context variable; it remembers the
previous state so reset can restore it. -/
structure CtxToken (μ : Type) where
  prev : Option μ

/-- ContextVar.set: store the new value, return a token holding the
previous state. -/
def contextVarSet (state : Option μ) (m : μ) : CtxToken μ × Option μ :=
  (⟨state⟩, some m)

/-- ContextVar.reset: restore the state recorded in the token. -/
def contextVarReset (tok : CtxToken μ) (_ : Option μ) : Option μ :=
  tok.prev

/-- Embedding of get_current_message from bus/message.py: return
the stored message, or raise LookupError when none is set. -/
def get_current_message (state : Option μ) : Except PyError μ :=
  match state with
  | some m => Except.ok m
  | none => Except.error PyError.lookupError

/-- Embedding of the set-current-message context manager from
bus/message.py: set the variable, run the body, and reset the
variable in a finally block, so the reset happens whether the body
returns normally or raises. -/
def set_current_message_run (m : μ) (body : Option μ → Except ε α)
    (s0 : Option μ) : Except ε α × Option μ :=
  let p := contextVarSet s0 m
  let result := body p.2
  (result, contextVarReset p.1 p.2)

/-! ## bus/sdbus.py: SdBus.request_name -/

/-- The exceptions request_name can raise. -/
inductive RequestNameError where
  | nameInQueue
  | nameExists
  | alreadyOwner
  | dbusError (info : String)
deriving DecidableEq, Repr

/-- Embedding of SdBus.request_name from bus/sdbus.py: a failure of
the underlying bus call becomes a generic D-Bus error; otherwise the
reply result code is mapped: 1 success, 2 in-queue, 3 name exists,
4 already owner, anything else a generic D-Bus error. -/
def SdBus.request_name_outcome (response : Except String Nat) :
    Except RequestNameError Unit :=
  match response with
  | Except.error e => Except.error (RequestNameError.dbusError e)
  | Except.ok result =>
      if result = 1 then Except.ok ()
      else if result = 2 then Except.error RequestNameError.nameInQueue
      else if result = 3 then Except.error RequestNameError.nameExists
      else if result = 4 then Except.error RequestNameError.alreadyOwner
      else Except.error (RequestNameError.dbusError
        ("Unknown result code: " ++ toString result))

/-! ## interface/base.py: DbusInterface.export_to_dbus -/

/-- The local metadata attached to a served object. -/
structure DbusLocalObjectMeta (β : Type) where
  attached_bus : Option β
  serving_object_path : Option String
deriving DecidableEq, Repr

/-- The dbus metadata of an interface object: either local (an
object that can be exported) or remote (a proxy). -/
inductive ObjectDbusMeta (β : Type) where
  | localMeta (m : DbusLocalObjectMeta β)
  | remoteMeta
deriving DecidableEq, Repr

/-- Embedding of DbusInterface.export_to_dbus from
interface/base.py, restricted to the state it checks and updates: a
proxy cannot be exported; an object with an attached bus is already
exported; otherwise the bus (or the default bus) and the serving
object path are recorded. -/
def DbusInterface.export_to_dbus (st : ObjectDbusMeta β)
    (object_path : String) (bus : Option β) (default_bus : β) :
    Except PyError (ObjectDbusMeta β) :=
  match st with
  | ObjectDbusMeta.remoteMeta =>
      Except.error (PyError.runtimeError "Cannot export D-Bus proxies.")
  | ObjectDbusMeta.localMeta m =>
      if m.attached_bus.isSome then
        Except.error (PyError.runtimeError "Object already exported.")
      else
        Except.ok (ObjectDbusMeta.localMeta
          { attached_bus := some (bus.getD default_bus)
          , serving_object_path := some object_path })

/-! ## interface/base.py: the interface-name registry in the metaclass -/

/-- The interface-name registry, an association of interface names
to classes (classes are identified by an allocation id). -/
def InterfaceRegistry : Type := List (String × Nat)

/-- Embedding of the registry-relevant logic of the metaclass
constructor in interface/base.py: creating a class whose interface
name is already registered raises ValueError before anything else;
the member checks that follow may raise; a successful creation with
an interface name registers the new class under that name, and a
creation without an interface name registers nothing. -/
def DbusInterfaceMeta.new (registry : InterfaceRegistry)
    (interface_name : Option String) (memberChecksPass : Bool)
    (newCls : Nat) : Except PyError InterfaceRegistry :=
  let nameTaken : Bool :=
    match interface_name with
    | some n => (List.find? (fun e => e.1 == n) registry).isSome
    | none => false
  if nameTaken then
    Except.error PyError.valueError
  else if !memberChecksPass then
    Except.error PyError.typeError
  else
    match interface_name with
    | some n => Except.ok ((n, newCls) :: registry)
    | none => Except.ok registry

/-- A registry is one-to-one when no name and no class occurs
twice. -/
def registryOneToOne (registry : InterfaceRegistry) : Prop :=
  (List.map Prod.fst registry).Nodup ∧ (List.map Prod.snd registry).Nodup

/-! ## Signal match rules (modelled from the spec) -/

/-- Modelled from the spec: the MatchRule record of section 3; the
rule evaluation itself happens inside the native sd-bus library
behind match_signal_async and is not part of the Python sources. -/
structure MatchRule where
  sender_filter : Option String
  path_filter : Option String
  interface_filter : Option String
  member_filter : Option String
deriving DecidableEq, Repr

/-- The metadata of an inbound signal message that match rules
inspect. -/
structure SignalMessageMeta where
  sender : String
  path : String
  interface : String
  member : String
deriving DecidableEq, Repr

/-- Modelled from the spec: an absent filter field matches
anything; a present field must equal the message field. -/
def fieldMatches (filter : Option String) (value : String) : Bool :=
  match filter with
  | none => true
  | some f => f == value

/-- Modelled from the spec: filters are AND-ed within a rule. -/
def MatchRule.matchesSignal (r : MatchRule) (m : SignalMessageMeta) : Bool :=
  fieldMatches r.sender_filter m.sender &&
  fieldMatches r.path_filter m.path &&
  fieldMatches r.interface_filter m.interface &&
  fieldMatches r.member_filter m.member

/-- Modelled from the spec: dispatch delivers the signal to every
subscriber whose rule matches. -/
def dispatchSignal (rules : List (MatchRule × Nat))
    (m : SignalMessageMeta) : List Nat :=
  List.map Prod.snd (List.filter (fun rk => rk.1.matchesSignal m) rules)

/-! ## Wire codec (modelled from the spec)

The D-Bus wire codec used by the Python sources lives in the native
_sdbus C extension and is not part of the Python source tree.  The
definitions below are modelled from the specification, sections 4.1
and 8: little-endian byte order (one endianness per message),
alignment padding, u32 length-prefixed NUL-terminated strings and
object paths, byte length-prefixed signatures, u32 byte-length
prefixed arrays, 8-aligned structs and dict entries, and
self-describing variants.  Bytes are Nat below 256; integers are
represented by their width-bounded wire representation; doubles by
their 8-byte bit pattern.  The model does not enforce the nesting
depth bound of 32 or the restriction of dict entries to array
element position. -/

/-- A D-Bus type, one per signature type code. -/
inductive DbusType where
  | byteT
  | booleanT
  | int16T
  | uint16T
  | int32T
  | uint32T
  | int64T
  | uint64T
  | doubleT
  | stringT
  | objectPathT
  | signatureT
  | arrayT (elem : DbusType)
  | structT (fields : List DbusType)
  | dictEntryT (key : DbusType) (value : DbusType)
  | variantT

/-- A D-Bus value.  Strings and object paths carry their raw byte
payload; signatures carry the parsed type list; variants carry the
contained type and value. -/
inductive DbusValue where
  | byteV (n : Nat)
  | booleanV (b : Bool)
  | int16V (n : Nat)
  | uint16V (n : Nat)
  | int32V (n : Nat)
  | uint32V (n : Nat)
  | int64V (n : Nat)
  | uint64V (n : Nat)
  | doubleV (bits : Nat)
  | stringV (payload : List Nat)
  | objectPathV (payload : List Nat)
  | signatureV (types : List DbusType)
  | arrayV (elems : List DbusValue)
  | structV (fields : List DbusValue)
  | dictEntryV (key : DbusValue) (value : DbusValue)
  | variantV (type : DbusType) (value : DbusValue)

/-- Natural alignment of each type, from the spec alignment rule. -/
def DbusType.alignment : DbusType → Nat
  | DbusType.byteT => 1
  | DbusType.booleanT => 4
  | DbusType.int16T => 2
  | DbusType.uint16T => 2
  | DbusType.int32T => 4
  | DbusType.uint32T => 4
  | DbusType.int64T => 8
  | DbusType.uint64T => 8
  | DbusType.doubleT => 8
  | DbusType.stringT => 4
  | DbusType.objectPathT => 4
  | DbusType.signatureT => 1
  | DbusType.arrayT _ => 4
  | DbusType.structT _ => 8
  | DbusType.dictEntryT _ _ => 8
  | DbusType.variantT => 1

/-- Whether a type is basic (usable as a dict-entry key). -/
def DbusType.isBasic : DbusType → Bool
  | DbusType.arrayT _ => false
  | DbusType.structT _ => false
  | DbusType.dictEntryT _ _ => false
  | DbusType.variantT => false
  | _ => true

mutual

/-- Structural validity of a type: structs are nonempty and dict
keys are basic. -/
def validType : DbusType → Bool
  | DbusType.arrayT e => validType e
  | DbusType.structT fields => !fields.isEmpty && validTypeList fields
  | DbusType.dictEntryT k v => k.isBasic && validType v
  | _ => true

/-- Validity of every type of a list. -/
def validTypeList : List DbusType → Bool
  | [] => true
  | t :: ts => validType t && validTypeList ts

end

mutual

/-- Render a type as its signature byte string (ASCII type
codes). -/
def renderType : DbusType → List Nat
  | DbusType.byteT => [121]
  | DbusType.booleanT => [98]
  | DbusType.int16T => [110]
  | DbusType.uint16T => [113]
  | DbusType.int32T => [105]
  | DbusType.uint32T => [117]
  | DbusType.int64T => [120]
  | DbusType.uint64T => [116]
  | DbusType.doubleT => [100]
  | DbusType.stringT => [115]
  | DbusType.objectPathT => [111]
  | DbusType.signatureT => [103]
  | DbusType.arrayT e => 97 :: renderType e
  | DbusType.structT fields => 40 :: (renderTypeList fields ++ [41])
  | DbusType.dictEntryT k v => 123 :: (renderType k ++ renderType v ++ [125])
  | DbusType.variantT => [118]

/-- Render a list of types as the concatenation of their
signatures. -/
def renderTypeList : List DbusType → List Nat
  | [] => []
  | t :: ts => renderType t ++ renderTypeList ts

end

mutual

/-- Fuel-indexed parser for one complete type from a signature byte
string; returns the type and the remaining bytes. -/
def parseTypeF : Nat → List Nat → Option (DbusType × List Nat)
  | 0, _ => none
  | _ + 1, [] => none
  | fuel + 1, c :: rest =>
      if c = 121 then some (DbusType.byteT, rest)
      else if c = 98 then some (DbusType.booleanT, rest)
      else if c = 110 then some (DbusType.int16T, rest)
      else if c = 113 then some (DbusType.uint16T, rest)
      else if c = 105 then some (DbusType.int32T, rest)
      else if c = 117 then some (DbusType.uint32T, rest)
      else if c = 120 then some (DbusType.int64T, rest)
      else if c = 116 then some (DbusType.uint64T, rest)
      else if c = 100 then some (DbusType.doubleT, rest)
      else if c = 115 then some (DbusType.stringT, rest)
      else if c = 111 then some (DbusType.objectPathT, rest)
      else if c = 103 then some (DbusType.signatureT, rest)
      else if c = 118 then some (DbusType.variantT, rest)
      else if c = 97 then
        match parseTypeF fuel rest with
        | some (e, rest2) => some (DbusType.arrayT e, rest2)
        | none => none
      else if c = 40 then
        match parseFieldsF fuel rest with
        | some (fields, rest2) =>
            if fields.isEmpty then none
            else some (DbusType.structT fields, rest2)
        | none => none
      else if c = 123 then
        match parseTypeF fuel rest with
        | some (k, rest2) =>
            if k.isBasic then
              match parseTypeF fuel rest2 with
              | some (v, rest3) =>
                  match rest3 with
                  | 125 :: rest4 => some (DbusType.dictEntryT k v, rest4)
                  | _ => none
              | none => none
            else none
        | none => none
      else none

/-- Fuel-indexed parser for struct fields up to the closing
parenthesis byte. -/
def parseFieldsF : Nat → List Nat → Option (List DbusType × List Nat)
  | 0, _ => none
  | _ + 1, [] => none
  | fuel + 1, c :: rest =>
      if c = 41 then some ([], rest)
      else
        match parseTypeF fuel (c :: rest) with
        | some (t, rest2) =>
            match parseFieldsF fuel rest2 with
            | some (ts, rest3) => some (t :: ts, rest3)
            | none => none
        | none => none

end

/-- Parse one complete type from a signature byte string. -/
def parseType (bs : List Nat) : Option (DbusType × List Nat) :=
  parseTypeF (2 * bs.length + 1) bs

/-- Fuel-indexed parser for a whole signature byte string into a
list of complete types. -/
def parseTypeListF : Nat → List Nat → Option (List DbusType)
  | 0, _ => none
  | _ + 1, [] => some []
  | fuel + 1, b :: bs =>
      match parseType (b :: bs) with
      | some (t, rest) =>
          if rest.length < (b :: bs).length then
            match parseTypeListF fuel rest with
            | some ts => some (t :: ts)
            | none => none
          else none
      | none => none

/-- Parse a whole signature byte string into a list of complete
types, requiring full consumption. -/
def parseTypeList (bs : List Nat) : Option (List DbusType) :=
  parseTypeListF (bs.length + 1) bs

/-- Padding needed to advance off to the next multiple of a. -/
def padLen (off a : Nat) : Nat := (a - off % a) % a

/-- The zero padding bytes emitted at off for alignment a. -/
def padBytes (off a : Nat) : List Nat := List.replicate (padLen off a) 0

/-- Little-endian encoding of n into w bytes. -/
def natToLE : Nat → Nat → List Nat
  | 0, _ => []
  | w + 1, n => n % 256 :: natToLE w (n / 256)

/-- Little-endian decoding of a byte list. -/
def leToNat : List Nat → Nat
  | [] => 0
  | b :: bs => b + 256 * leToNat bs

/-- Split off the first n bytes when the buffer is long enough. -/
def splitN (n : Nat) (bs : List Nat) : Option (List Nat × List Nat) :=
  if n ≤ bs.length then some (bs.take n, bs.drop n) else none

/-- Whether b is a UTF-8 continuation byte. -/
def isCont (b : Nat) : Bool := 128 ≤ b && b ≤ 191

/-- UTF-8 validity of a byte string (RFC 3629 table: rejects
overlong forms, surrogates and values above U+10FFFF). -/
def utf8Valid : List Nat → Bool
  | [] => true
  | b1 :: rest =>
      if b1 < 128 then utf8Valid rest
      else if 194 ≤ b1 && b1 ≤ 223 then
        match rest with
        | b2 :: rest2 => isCont b2 && utf8Valid rest2
        | [] => false
      else if b1 = 224 then
        match rest with
        | b2 :: b3 :: rest2 =>
            (160 ≤ b2 && b2 ≤ 191) && isCont b3 && utf8Valid rest2
        | _ => false
      else if (225 ≤ b1 && b1 ≤ 236) || b1 = 238 || b1 = 239 then
        match rest with
        | b2 :: b3 :: rest2 => isCont b2 && isCont b3 && utf8Valid rest2
        | _ => false
      else if b1 = 237 then
        match rest with
        | b2 :: b3 :: rest2 =>
            (128 ≤ b2 && b2 ≤ 159) && isCont b3 && utf8Valid rest2
        | _ => false
      else if b1 = 240 then
        match rest with
        | b2 :: b3 :: b4 :: rest2 =>
            (144 ≤ b2 && b2 ≤ 191) && isCont b3 && isCont b4 && utf8Valid rest2
        | _ => false
      else if 241 ≤ b1 && b1 ≤ 243 then
        match rest with
        | b2 :: b3 :: b4 :: rest2 =>
            isCont b2 && isCont b3 && isCont b4 && utf8Valid rest2
        | _ => false
      else if b1 = 244 then
        match rest with
        | b2 :: b3 :: b4 :: rest2 =>
            (128 ≤ b2 && b2 ≤ 143) && isCont b3 && isCont b4 && utf8Valid rest2
        | _ => false
      else false

/-- Whether b is allowed inside an object-path segment. -/
def isPathChar (b : Nat) : Bool :=
  (65 ≤ b && b ≤ 90) || (97 ≤ b && b ≤ 122) || (48 ≤ b && b ≤ 57) || b = 95

mutual

/-- A nonempty path segment followed by the rest of the path. -/
def pathSegs : List Nat → Bool
  | [] => false
  | b :: rest => isPathChar b && pathSegsAfter rest

/-- Continuation of a segment: more segment characters, or a slash
starting the next segment, or the end of the path. -/
def pathSegsAfter : List Nat → Bool
  | [] => true
  | 47 :: rest => pathSegs rest
  | b :: rest => isPathChar b && pathSegsAfter rest

end

/-- Object-path validity: the root path, or a slash-started
sequence of nonempty ASCII segments without a trailing slash. -/
def objectPathValid : List Nat → Bool
  | [47] => true
  | 47 :: rest => pathSegs rest
  | _ => false

mutual

/-- Modelled from the spec: encode a value of the given type,
starting at absolute offset off, into the byte string placed there,
alignment padding included.  Fails when the value does not match
the type, when a numeric value does not fit its width, when a
string payload is not valid UTF-8 or contains NUL, when an object
path is malformed, when an embedded signature is invalid or too
long, or when an array body exceeds the 64 MiB bound. -/
def encodeAt (t : DbusType) (v : DbusValue) (off : Nat) : Option (List Nat) :=
  match t, v with
  | DbusType.byteT, DbusValue.byteV n =>
      if n < 256 then some [n] else none
  | DbusType.booleanT, DbusValue.booleanV b =>
      some (padBytes off 4 ++ natToLE 4 (cond b 1 0))
  | DbusType.int16T, DbusValue.int16V n =>
      if n < 256 ^ 2 then some (padBytes off 2 ++ natToLE 2 n) else none
  | DbusType.uint16T, DbusValue.uint16V n =>
      if n < 256 ^ 2 then some (padBytes off 2 ++ natToLE 2 n) else none
  | DbusType.int32T, DbusValue.int32V n =>
      if n < 256 ^ 4 then some (padBytes off 4 ++ natToLE 4 n) else none
  | DbusType.uint32T, DbusValue.uint32V n =>
      if n < 256 ^ 4 then some (padBytes off 4 ++ natToLE 4 n) else none
  | DbusType.int64T, DbusValue.int64V n =>
      if n < 256 ^ 8 then some (padBytes off 8 ++ natToLE 8 n) else none
  | DbusType.uint64T, DbusValue.uint64V n =>
      if n < 256 ^ 8 then some (padBytes off 8 ++ natToLE 8 n) else none
  | DbusType.doubleT, DbusValue.doubleV bits =>
      if bits < 256 ^ 8 then some (padBytes off 8 ++ natToLE 8 bits) else none
  | DbusType.stringT, DbusValue.stringV payload =>
      if utf8Valid payload && !payload.contains 0 &&
          payload.length < 256 ^ 4 then
        some (padBytes off 4 ++ natToLE 4 payload.length ++ payload ++ [0])
      else none
  | DbusType.objectPathT, DbusValue.objectPathV payload =>
      if objectPathValid payload && payload.length < 256 ^ 4 then
        some (padBytes off 4 ++ natToLE 4 payload.length ++ payload ++ [0])
      else none
  | DbusType.signatureT, DbusValue.signatureV ts =>
      if validTypeList ts && (renderTypeList ts).length ≤ 255 then
        some ((renderTypeList ts).length :: renderTypeList ts ++ [0])
      else none
  | DbusType.variantT, DbusValue.variantV it iv =>
      if validType it && (renderType it).length ≤ 255 then
        match encodeAt it iv (off + 1 + (renderType it).length + 1) with
        | some inner =>
            some ((renderType it).length :: renderType it ++ [0] ++ inner)
        | none => none
      else none
  | DbusType.arrayT elem, DbusValue.arrayV elems =>
      match encodeElems elem elems
          (off + padLen off 4 + 4 + padLen (off + padLen off 4 + 4) elem.alignment) with
      | some body =>
          if body.length < 2 ^ 26 then
            some (padBytes off 4 ++ natToLE 4 body.length ++
              padBytes (off + padLen off 4 + 4) elem.alignment ++ body)
          else none
      | none => none
  | DbusType.structT fields, DbusValue.structV vals =>
      if fields.isEmpty then none
      else
        match encodeFields fields vals (off + padLen off 8) with
        | some body => some (padBytes off 8 ++ body)
        | none => none
  | DbusType.dictEntryT kt vt, DbusValue.dictEntryV kv vv =>
      match encodeAt kt kv (off + padLen off 8) with
      | some kb =>
          match encodeAt vt vv (off + padLen off 8 + kb.length) with
          | some vb => some (padBytes off 8 ++ kb ++ vb)
          | none => none
      | none => none
  | _, _ => none

/-- Encode a sequence of struct fields back to back, each at its
own running offset. -/
def encodeFields (ts : List DbusType) (vs : List DbusValue) (off : Nat) :
    Option (List Nat) :=
  match ts, vs with
  | [], [] => some []
  | t :: ts2, v :: vs2 =>
      match encodeAt t v off with
      | some b =>
          match encodeFields ts2 vs2 (off + b.length) with
          | some bs => some (b ++ bs)
          | none => none
      | none => none
  | _, _ => none

/-- Encode array elements back to back, each at its own running
offset. -/
def encodeElems (elem : DbusType) (vs : List DbusValue) (off : Nat) :
    Option (List Nat) :=
  match vs with
  | [] => some []
  | v :: vs2 =>
      match encodeAt elem v off with
      | some b =>
          match encodeElems elem vs2 (off + b.length) with
          | some bs => some (b ++ bs)
          | none => none
      | none => none

end

/-- Decode a fixed-width padded number: skip alignment padding,
read w bytes little-endian. -/
def decodeFixed (w : Nat) (mk : Nat → DbusValue) (a : Nat) (off : Nat)
    (bytes : List Nat) : Option (DbusValue × Nat) :=
  match splitN (padLen off a) bytes with
  | some (_, r1) =>
      match splitN w r1 with
      | some (chunk, _) => some (mk (leToNat chunk), padLen off a + w)
      | none => none
  | none => none

/-- Decode a u32 length-prefixed, NUL-terminated byte payload
(strings and object paths), validating it with check. -/
def decodeStringLike (mk : List Nat → DbusValue) (check : List Nat → Bool)
    (off : Nat) (bytes : List Nat) : Option (DbusValue × Nat) :=
  match splitN (padLen off 4) bytes with
  | some (_, r1) =>
      match splitN 4 r1 with
      | some (lenChunk, r2) =>
          match splitN (leToNat lenChunk) r2 with
          | some (payload, r3) =>
              match r3 with
              | 0 :: _ =>
                  if check payload then
                    some (mk payload, padLen off 4 + 4 + leToNat lenChunk + 1)
                  else none
              | _ => none
          | none => none
      | none => none
  | none => none

/-- Lexicographic ordering witness from a strict first component. -/
def prodLexOfLt {a1 b1 a2 b2 : Nat} (h : a1 < a2) :
    Prod.Lex (· < ·) (· < ·) (a1, b1) (a2, b2) :=
  Prod.Lex.left _ _ h

/-- Lexicographic ordering witness from a non-strict first
component and a strict second component. -/
def prodLexOfLe {a1 b1 a2 b2 : Nat} (h1 : a1 ≤ a2) (h2 : b1 < b2) :
    Prod.Lex (· < ·) (· < ·) (a1, b1) (a2, b2) := by
  rcases Nat.lt_or_ge a1 a2 with h | h
  · exact Prod.Lex.left _ _ h
  · have heq : a1 = a2 := Nat.le_antisymm h1 h
    subst heq
    exact Prod.Lex.right _ h2

mutual

/-- Modelled from the spec: decode one value of the given type from
the byte string, whose head sits at absolute offset off; returns
the value and the number of bytes consumed, padding included.
Arrays stop consuming elements exactly when the declared byte
length is exhausted. -/
def decodeAt (t : DbusType) (off : Nat) (bytes : List Nat) :
    Option (DbusValue × Nat) :=
  match t with
  | DbusType.byteT =>
      match bytes with
      | b :: _ => some (DbusValue.byteV b, 1)
      | [] => none
  | DbusType.booleanT =>
      match splitN (padLen off 4) bytes with
      | some (_, r1) =>
          match splitN 4 r1 with
          | some (chunk, _) =>
              if leToNat chunk = 0 then
                some (DbusValue.booleanV false, padLen off 4 + 4)
              else if leToNat chunk = 1 then
                some (DbusValue.booleanV true, padLen off 4 + 4)
              else none
          | none => none
      | none => none
  | DbusType.int16T => decodeFixed 2 DbusValue.int16V 2 off bytes
  | DbusType.uint16T => decodeFixed 2 DbusValue.uint16V 2 off bytes
  | DbusType.int32T => decodeFixed 4 DbusValue.int32V 4 off bytes
  | DbusType.uint32T => decodeFixed 4 DbusValue.uint32V 4 off bytes
  | DbusType.int64T => decodeFixed 8 DbusValue.int64V 8 off bytes
  | DbusType.uint64T => decodeFixed 8 DbusValue.uint64V 8 off bytes
  | DbusType.doubleT => decodeFixed 8 DbusValue.doubleV 8 off bytes
  | DbusType.stringT =>
      decodeStringLike DbusValue.stringV
        (fun p => utf8Valid p && !p.contains 0) off bytes
  | DbusType.objectPathT =>
      decodeStringLike DbusValue.objectPathV objectPathValid off bytes
  | DbusType.signatureT =>
      match bytes with
      | l :: r1 =>
          if l + 1 ≤ r1.length then
            if (r1.drop l).head? = some 0 then
              match parseTypeList (r1.take l) with
              | some ts => some (DbusValue.signatureV ts, 1 + l + 1)
              | none => none
            else none
          else none
      | [] => none
  | DbusType.variantT =>
      match bytes with
      | l :: r1 =>
          if l + 1 ≤ r1.length then
            if (r1.drop l).head? = some 0 then
              match parseType (r1.take l) with
              | some (it, []) =>
                  match decodeAt it (off + 1 + l + 1) (r1.drop (l + 1)) with
                  | some (iv, c) =>
                      some (DbusValue.variantV it iv, 1 + l + 1 + c)
                  | none => none
              | _ => none
            else none
          else none
      | [] => none
  | DbusType.arrayT elem =>
      if h1 : padLen off 4 + 4 ≤ bytes.length then
        if h2 : leToNat ((bytes.drop (padLen off 4)).take 4) < 2 ^ 26 ∧
            padLen off 4 + 4 + padLen (off + padLen off 4 + 4) elem.alignment +
              leToNat ((bytes.drop (padLen off 4)).take 4) ≤ bytes.length then
          match decodeElems elem
              (off + padLen off 4 + 4 +
                padLen (off + padLen off 4 + 4) elem.alignment)
              ((bytes.drop (padLen off 4 + 4 +
                padLen (off + padLen off 4 + 4) elem.alignment)).take
                (leToNat ((bytes.drop (padLen off 4)).take 4))) with
          | some (vals, c) =>
              if c = leToNat ((bytes.drop (padLen off 4)).take 4) then
                some (DbusValue.arrayV vals,
                  padLen off 4 + 4 +
                    padLen (off + padLen off 4 + 4) elem.alignment +
                    leToNat ((bytes.drop (padLen off 4)).take 4))
              else none
          | none => none
        else none
      else none
  | DbusType.structT fields =>
      match decodeFields fields (off + padLen off 8)
          (bytes.drop (padLen off 8)) with
      | some (vals, c) => some (DbusValue.structV vals, padLen off 8 + c)
      | none => none
  | DbusType.dictEntryT kt vt =>
      match decodeAt kt (off + padLen off 8) (bytes.drop (padLen off 8)) with
      | some (kv, c1) =>
          match decodeAt vt (off + padLen off 8 + c1)
              ((bytes.drop (padLen off 8)).drop c1) with
          | some (vv, c2) =>
              some (DbusValue.dictEntryV kv vv, padLen off 8 + c1 + c2)
          | none => none
      | none => none
termination_by (bytes.length, 2 * sizeOf t)
decreasing_by
all_goals simp_wf
all_goals
  first
  | (apply prodLexOfLt <;>
      first
        | omega
        | (simp [List.length_drop, List.length_take, inf_eq_min] <;> omega))
  | (apply prodLexOfLe <;>
      first
        | omega
        | (simp [List.length_drop, List.length_take, inf_eq_min] <;> omega))

/-- Decode a sequence of struct fields back to back. -/
def decodeFields (ts : List DbusType) (off : Nat) (bytes : List Nat) :
    Option (List DbusValue × Nat) :=
  match ts with
  | [] => some ([], 0)
  | t :: rest =>
      match decodeAt t off bytes with
      | some (v, c) =>
          match decodeFields rest (off + c) (bytes.drop c) with
          | some (vs, c2) => some (v :: vs, c + c2)
          | none => none
      | none => none
termination_by (bytes.length, 2 * sizeOf ts)
decreasing_by
all_goals simp_wf
all_goals
  first
  | (apply prodLexOfLt <;>
      first
        | omega
        | (simp [List.length_drop, List.length_take, inf_eq_min] <;> omega))
  | (apply prodLexOfLe <;>
      first
        | omega
        | (simp [List.length_drop, List.length_take, inf_eq_min] <;> omega))

/-- Decode array elements until the byte string is exhausted,
requiring progress on every element. -/
def decodeElems (elem : DbusType) (off : Nat) (bytes : List Nat) :
    Option (List DbusValue × Nat) :=
  match bytes with
  | [] => some ([], 0)
  | b :: bs =>
      match decodeAt elem off (b :: bs) with
      | some (v, c) =>
          if h : c = 0 then none
          else
            match decodeElems elem (off + c) ((b :: bs).drop c) with
            | some (vs, c2) => some (v :: vs, c + c2)
            | none => none
      | none => none
termination_by (bytes.length, 2 * sizeOf elem + 1)
decreasing_by
all_goals simp_wf
all_goals
  first
  | (apply prodLexOfLt <;>
      first
        | omega
        | (simp [List.length_drop, List.length_take, inf_eq_min] <;> omega))
  | (apply prodLexOfLe <;>
      first
        | omega
        | (simp [List.length_drop, List.length_take, inf_eq_min] <;> omega))

end

/-! ## Codec lemmas -/

theorem natToLE_length (w n : Nat) : (natToLE w n).length = w := by
  induction w generalizing n with
  | zero => simp [natToLE]
  | succ w ih => simp [natToLE, ih]

theorem leToNat_natToLE (w n : Nat) : leToNat (natToLE w n) = n % 256 ^ w := by
  induction w generalizing n with
  | zero => simp [natToLE, leToNat, Nat.mod_one]
  | succ w ih =>
      have h : (256 : Nat) ^ (w + 1) = 256 * 256 ^ w := by ring
      rw [h, Nat.mod_mul]
      simp [natToLE, leToNat, ih]

theorem leToNat_natToLE_of_lt {w n : Nat} (h : n < 256 ^ w) :
    leToNat (natToLE w n) = n := by
  rw [leToNat_natToLE, Nat.mod_eq_of_lt h]

theorem splitN_prefix {xs ys : List Nat} {n : Nat} (h : xs.length = n) :
    splitN n (xs ++ ys) = some (xs, ys) := by
  subst h
  simp [splitN, List.take_left, List.drop_left, Nat.le_add_right]

theorem padBytes_length (off a : Nat) :
    (padBytes off a).length = padLen off a := by
  simp [padBytes]

theorem renderType_length_pos (t : DbusType) : 1 ≤ (renderType t).length := by
  cases t <;> simp [renderType]

theorem renderType_ne_nil (t : DbusType) : renderType t ≠ [] := by
  cases t <;> simp [renderType]

theorem renderType_head_ne (t : DbusType) (c : Nat) (cs : List Nat)
    (h : renderType t = c :: cs) : c ≠ 41 := by
  cases t <;> simp [renderType] at h <;> omega

theorem isBasic_validType {t : DbusType} (h : t.isBasic = true) :
    validType t = true := by
  cases t <;> simp_all [DbusType.isBasic, validType]

mutual

theorem parseTypeF_render (t : DbusType) (hv : validType t = true)
    (fuel : Nat) (rest : List Nat)
    (hf : 2 * (renderType t).length ≤ fuel) :
    parseTypeF fuel (renderType t ++ rest) = some (t, rest) := by
  cases fuel with
  | zero =>
      exact absurd hf (by
        have := renderType_length_pos t
        omega)
  | succ f =>
      cases t with
      | byteT => simp [renderType, parseTypeF]
      | booleanT => simp [renderType, parseTypeF]
      | int16T => simp [renderType, parseTypeF]
      | uint16T => simp [renderType, parseTypeF]
      | int32T => simp [renderType, parseTypeF]
      | uint32T => simp [renderType, parseTypeF]
      | int64T => simp [renderType, parseTypeF]
      | uint64T => simp [renderType, parseTypeF]
      | doubleT => simp [renderType, parseTypeF]
      | stringT => simp [renderType, parseTypeF]
      | objectPathT => simp [renderType, parseTypeF]
      | signatureT => simp [renderType, parseTypeF]
      | variantT => simp [renderType, parseTypeF]
      | arrayT e =>
          simp [validType] at hv
          simp [renderType, List.length_cons] at hf
          have ih := parseTypeF_render e hv f rest (by omega)
          simp [renderType, parseTypeF, ih]
      | structT fields =>
          simp [validType, Bool.and_eq_true] at hv
          simp [renderType, List.length_cons, List.length_append] at hf
          have ih := parseFieldsF_render fields hv.2 f rest (by omega)
          simp [renderType, parseTypeF, List.append_assoc, ih, hv.1]
      | dictEntryT k v =>
          simp [validType, Bool.and_eq_true] at hv
          simp [renderType, List.length_cons, List.length_append] at hf
          have ihk := parseTypeF_render k (isBasic_validType hv.1) f
            (renderType v ++ 125 :: rest) (by omega)
          have ihv := parseTypeF_render v hv.2 f (125 :: rest) (by omega)
          simp [renderType, parseTypeF, List.append_assoc, ihk, hv.1, ihv]

theorem parseFieldsF_render (ts : List DbusType) (hv : validTypeList ts = true)
    (fuel : Nat) (rest : List Nat)
    (hf : 2 * (renderTypeList ts).length + 1 ≤ fuel) :
    parseFieldsF fuel (renderTypeList ts ++ 41 :: rest) = some (ts, rest) := by
  cases fuel with
  | zero => exact absurd hf (by omega)
  | succ f =>
      cases ts with
      | nil => simp [renderTypeList, parseFieldsF]
      | cons t ts2 =>
          simp [validTypeList, Bool.and_eq_true] at hv
          simp [renderTypeList, List.length_append] at hf
          have hpos := renderType_length_pos t
          have ih := parseFieldsF_render ts2 hv.2 f rest (by omega)
          have iht := parseTypeF_render t hv.1 f
            (renderTypeList ts2 ++ 41 :: rest) (by omega)
          cases hrt : renderType t with
          | nil => exact absurd hrt (renderType_ne_nil t)
          | cons c cs =>
              have hc : c ≠ 41 := renderType_head_ne t c cs hrt
              rw [hrt, List.cons_append] at iht
              simp [renderTypeList, List.append_assoc, hrt, parseFieldsF,
                hc, iht, ih]

end

theorem parseType_render (t : DbusType) (hv : validType t = true)
    (rest : List Nat) : parseType (renderType t ++ rest) = some (t, rest) := by
  apply parseTypeF_render t hv _ rest
  simp [List.length_append]
  omega

theorem parseType_render_nil (t : DbusType) (hv : validType t = true) :
    parseType (renderType t) = some (t, []) := by
  have h := parseType_render t hv []
  simpa using h

theorem parseTypeListF_render (ts : List DbusType)
    (hv : validTypeList ts = true) :
    ∀ fuel, (renderTypeList ts).length + 1 ≤ fuel →
      parseTypeListF fuel (renderTypeList ts) = some ts := by
  induction ts with
  | nil =>
      intro fuel hf
      cases fuel with
      | zero => exact absurd hf (by omega)
      | succ f => simp [renderTypeList, parseTypeListF]
  | cons t ts2 ih =>
      intro fuel hf
      simp [validTypeList, Bool.and_eq_true] at hv
      simp [renderTypeList, List.length_append] at hf
      have hpos := renderType_length_pos t
      cases fuel with
      | zero => exact absurd hf (by omega)
      | succ f =>
          have hpt := parseType_render t hv.1 (renderTypeList ts2)
          have ihl := ih hv.2 f (by omega)
          cases hrt : renderType t with
          | nil => exact absurd hrt (renderType_ne_nil t)
          | cons c cs =>
              rw [hrt, List.cons_append] at hpt
              simp [renderTypeList, hrt, List.cons_append, parseTypeListF,
                hpt, ihl]
              omega

theorem parseTypeList_render (ts : List DbusType)
    (hv : validTypeList ts = true) :
    parseTypeList (renderTypeList ts) = some ts := by
  exact parseTypeListF_render ts hv _ (by omega)

mutual

theorem encodeAt_length_pos (t : DbusType) (v : DbusValue) (off : Nat)
    (out : List Nat) (h : encodeAt t v off = some out) : 1 ≤ out.length := by
  cases t <;> cases v <;>
    (try (simp only [encodeAt] at h; exact Option.noConfusion h))
  case structT.structV fields vals =>
    simp only [encodeAt] at h
    split at h
    · exact Option.noConfusion h
    · cases heq : encodeFields fields vals (off + padLen off 8) with
      | none => simp only [heq] at h; exact Option.noConfusion h
      | some body =>
          simp only [heq] at h
          injection h with h2
          subst h2
          have hne : fields ≠ [] := by
            cases fields <;> simp_all [List.isEmpty]
          have hb := encodeFields_length_pos fields vals
            (off + padLen off 8) body hne heq
          simp [List.length_append]
          omega
  case dictEntryT.dictEntryV kt vt kv vv =>
    simp only [encodeAt] at h
    cases heq1 : encodeAt kt kv (off + padLen off 8) with
    | none => simp only [heq1] at h; exact Option.noConfusion h
    | some kb =>
        simp only [heq1] at h
        cases heq2 : encodeAt vt vv (off + padLen off 8 + kb.length) with
        | none => simp only [heq2] at h; exact Option.noConfusion h
        | some vb =>
            simp only [heq2] at h
            injection h with h2
            subst h2
            have hk := encodeAt_length_pos kt kv (off + padLen off 8) kb heq1
            simp [List.length_append]
            omega
  all_goals simp only [encodeAt] at h
  all_goals repeat split at h
  all_goals
    first
    | exact Option.noConfusion h
    | (injection h with h2; subst h2;
       simp [padBytes_length, natToLE_length, List.length_append,
         List.length_cons];
       try omega)

theorem encodeFields_length_pos (ts : List DbusType) (vs : List DbusValue)
    (off : Nat) (out : List Nat) (hts : ts ≠ [])
    (h : encodeFields ts vs off = some out) : 1 ≤ out.length := by
  cases ts with
  | nil => exact absurd rfl hts
  | cons t ts2 =>
      cases vs with
      | nil => simp only [encodeFields] at h; exact Option.noConfusion h
      | cons v vs2 =>
          simp only [encodeFields] at h
          cases heq1 : encodeAt t v off with
          | none => simp only [heq1] at h; exact Option.noConfusion h
          | some b =>
              simp only [heq1] at h
              cases heq2 : encodeFields ts2 vs2 (off + b.length) with
              | none => simp only [heq2] at h; exact Option.noConfusion h
              | some bs =>
                  simp only [heq2] at h
                  injection h with h2
                  subst h2
                  have hb := encodeAt_length_pos t v off b heq1
                  simp [List.length_append]
                  omega

end

theorem decodeFixed_encode (w : Nat) (mk : Nat → DbusValue) (a off n : Nat)
    (rest : List Nat) (hn : n < 256 ^ w) :
    decodeFixed w mk a off ((padBytes off a ++ natToLE w n) ++ rest) =
      some (mk n, (padBytes off a ++ natToLE w n).length) := by
  have h1 : splitN (padLen off a)
      (padBytes off a ++ (natToLE w n ++ rest)) =
      some (padBytes off a, natToLE w n ++ rest) :=
    splitN_prefix (padBytes_length off a)
  have h2 : splitN w (natToLE w n ++ rest) = some (natToLE w n, rest) :=
    splitN_prefix (natToLE_length w n)
  simp [decodeFixed, List.append_assoc, h1, h2, leToNat_natToLE_of_lt hn,
    padBytes_length, natToLE_length, List.length_append]

theorem decodeStringLike_encode (mk : List Nat → DbusValue)
    (check : List Nat → Bool) (off : Nat) (payload rest : List Nat)
    (hlen : payload.length < 256 ^ 4) (hcheck : check payload = true) :
    decodeStringLike mk check off
      ((padBytes off 4 ++ natToLE 4 payload.length ++ payload ++ [0]) ++ rest) =
      some (mk payload,
        (padBytes off 4 ++ natToLE 4 payload.length ++ payload ++ [0]).length) := by
  have h1 : splitN (padLen off 4)
      (padBytes off 4 ++ (natToLE 4 payload.length ++ (payload ++ (0 :: rest)))) =
      some (padBytes off 4,
        natToLE 4 payload.length ++ (payload ++ (0 :: rest))) :=
    splitN_prefix (padBytes_length off 4)
  have h2 : splitN 4 (natToLE 4 payload.length ++ (payload ++ (0 :: rest))) =
      some (natToLE 4 payload.length, payload ++ (0 :: rest)) :=
    splitN_prefix (natToLE_length 4 payload.length)
  have h3 : splitN payload.length (payload ++ (0 :: rest)) =
      some (payload, 0 :: rest) := splitN_prefix rfl
  simp [decodeStringLike, List.append_assoc, h1, h2,
    leToNat_natToLE_of_lt hlen, h3, hcheck, padBytes_length, natToLE_length,
    List.length_append]
  omega

mutual

theorem encode_decode_roundTrip (t : DbusType) (v : DbusValue) (off : Nat)
    (out : List Nat) (h : encodeAt t v off = some out) (rest : List Nat) :
    decodeAt t off (out ++ rest) = some (v, out.length) := by
  cases t <;> cases v <;>
    (try (simp only [encodeAt] at h; exact Option.noConfusion h))
  case byteT.byteV n =>
    simp only [encodeAt] at h
    split at h
    · injection h with h2
      subst h2
      simp [decodeAt]
    · exact Option.noConfusion h
  case booleanT.booleanV b =>
    simp only [encodeAt] at h
    injection h with h2
    subst h2
    cases b
    · have h1 : splitN (padLen off 4)
          (padBytes off 4 ++ (natToLE 4 0 ++ rest)) =
          some (padBytes off 4, natToLE 4 0 ++ rest) :=
        splitN_prefix (padBytes_length off 4)
      have h2b : splitN 4 (natToLE 4 0 ++ rest) =
          some (natToLE 4 0, rest) :=
        splitN_prefix (natToLE_length 4 0)
      simp [decodeAt, List.append_assoc, h1, h2b,
        leToNat_natToLE_of_lt (show (0 : Nat) < 256 ^ 4 by norm_num),
        padBytes_length, natToLE_length, List.length_append]
    · have h1 : splitN (padLen off 4)
          (padBytes off 4 ++ (natToLE 4 1 ++ rest)) =
          some (padBytes off 4, natToLE 4 1 ++ rest) :=
        splitN_prefix (padBytes_length off 4)
      have h2b : splitN 4 (natToLE 4 1 ++ rest) =
          some (natToLE 4 1, rest) :=
        splitN_prefix (natToLE_length 4 1)
      simp [decodeAt, List.append_assoc, h1, h2b,
        leToNat_natToLE_of_lt (show (1 : Nat) < 256 ^ 4 by norm_num),
        padBytes_length, natToLE_length, List.length_append]
  case int16T.int16V n =>
    simp only [encodeAt] at h
    split at h
    · rename_i hn
      injection h with h2
      subst h2
      simp only [decodeAt]
      exact decodeFixed_encode 2 DbusValue.int16V 2 off n rest hn
    · exact Option.noConfusion h
  case uint16T.uint16V n =>
    simp only [encodeAt] at h
    split at h
    · rename_i hn
      injection h with h2
      subst h2
      simp only [decodeAt]
      exact decodeFixed_encode 2 DbusValue.uint16V 2 off n rest hn
    · exact Option.noConfusion h
  case int32T.int32V n =>
    simp only [encodeAt] at h
    split at h
    · rename_i hn
      injection h with h2
      subst h2
      simp only [decodeAt]
      exact decodeFixed_encode 4 DbusValue.int32V 4 off n rest hn
    · exact Option.noConfusion h
  case uint32T.uint32V n =>
    simp only [encodeAt] at h
    split at h
    · rename_i hn
      injection h with h2
      subst h2
      simp only [decodeAt]
      exact decodeFixed_encode 4 DbusValue.uint32V 4 off n rest hn
    · exact Option.noConfusion h
  case int64T.int64V n =>
    simp only [encodeAt] at h
    split at h
    · rename_i hn
      injection h with h2
      subst h2
      simp only [decodeAt]
      exact decodeFixed_encode 8 DbusValue.int64V 8 off n rest hn
    · exact Option.noConfusion h
  case uint64T.uint64V n =>
    simp only [encodeAt] at h
    split at h
    · rename_i hn
      injection h with h2
      subst h2
      simp only [decodeAt]
      exact decodeFixed_encode 8 DbusValue.uint64V 8 off n rest hn
    · exact Option.noConfusion h
  case doubleT.doubleV bits =>
    simp only [encodeAt] at h
    split at h
    · rename_i hn
      injection h with h2
      subst h2
      simp only [decodeAt]
      exact decodeFixed_encode 8 DbusValue.doubleV 8 off bits rest hn
    · exact Option.noConfusion h
  case stringT.stringV payload =>
    simp only [encodeAt] at h
    split at h
    · rename_i hcond
      injection h with h2
      subst h2
      simp only [Bool.and_eq_true, decide_eq_true_eq] at hcond
      simp only [decodeAt]
      exact decodeStringLike_encode _ _ off payload rest hcond.2
        (by simp [hcond.1.1]; simpa using hcond.1.2)
    · exact Option.noConfusion h
  case objectPathT.objectPathV payload =>
    simp only [encodeAt] at h
    split at h
    · rename_i hcond
      injection h with h2
      subst h2
      simp only [Bool.and_eq_true, decide_eq_true_eq] at hcond
      simp only [decodeAt]
      exact decodeStringLike_encode _ _ off payload rest hcond.2 hcond.1
    · exact Option.noConfusion h
  case signatureT.signatureV ts =>
    simp only [encodeAt] at h
    split at h
    · rename_i hcond
      injection h with h2
      subst h2
      simp only [Bool.and_eq_true, decide_eq_true_eq] at hcond
      have hd : (renderTypeList ts ++ (0 :: rest)).drop
          (renderTypeList ts).length = 0 :: rest := List.drop_left _ _
      have ht : (renderTypeList ts ++ (0 :: rest)).take
          (renderTypeList ts).length = renderTypeList ts := List.take_left _ _
      have hp := parseTypeList_render ts hcond.1
      have hlen2 : (renderTypeList ts).length + 1 ≤
          (renderTypeList ts ++ (0 :: rest)).length := by
        simp [List.length_append]
      simp [decodeAt, List.cons_append, List.append_assoc, hlen2, hd, ht, hp,
        List.length_append, List.length_cons]
      omega
    · exact Option.noConfusion h
  case variantT.variantV it iv =>
    simp only [encodeAt] at h
    split at h
    · rename_i hcond
      cases heq : encodeAt it iv (off + 1 + (renderType it).length + 1) with
      | none => simp only [heq] at h; exact Option.noConfusion h
      | some inner =>
          simp only [heq] at h
          injection h with h2
          subst h2
          simp only [Bool.and_eq_true, decide_eq_true_eq] at hcond
          have ihinner := encode_decode_roundTrip it iv
            (off + 1 + (renderType it).length + 1) inner heq rest
          have hd0 : (renderType it ++ (0 :: (inner ++ rest))).drop
              (renderType it).length = 0 :: (inner ++ rest) :=
            List.drop_left _ _
          have ht0 : (renderType it ++ (0 :: (inner ++ rest))).take
              (renderType it).length = renderType it := List.take_left _ _
          have hd1 : (renderType it ++ (0 :: (inner ++ rest))).drop
              ((renderType it).length + 1) = inner ++ rest := by
            rw [show renderType it ++ (0 :: (inner ++ rest)) =
              (renderType it ++ [0]) ++ (inner ++ rest) by simp]
            exact List.drop_left' (by simp)
          have hp := parseType_render_nil it hcond.1
          have hlen2 : (renderType it).length + 1 ≤
              (renderType it ++ (0 :: (inner ++ rest))).length := by
            simp [List.length_append]
          simp [decodeAt, List.cons_append, List.append_assoc, hlen2, hd0,
            ht0, hd1, hp, ihinner, List.length_append, List.length_cons]
          omega
    · exact Option.noConfusion h
  case arrayT.arrayV elem elems =>
    simp only [encodeAt] at h
    cases heq : encodeElems elem elems
        (off + padLen off 4 + 4 +
          padLen (off + padLen off 4 + 4) elem.alignment) with
    | none => simp only [heq] at h; exact Option.noConfusion h
    | some body =>
        simp only [heq] at h
        split at h
        · rename_i hlt
          injection h with h2
          subst h2
          have ihb := encodeElems_decodeElems elem elems
            (off + padLen off 4 + 4 +
              padLen (off + padLen off 4 + 4) elem.alignment) body heq
          have hL32 : body.length < 256 ^ 4 := by
            have : (2 : Nat) ^ 26 < 256 ^ 4 := by norm_num
            omega
          have hdropA : (padBytes off 4 ++ (natToLE 4 body.length ++
              (padBytes (off + padLen off 4 + 4) elem.alignment ++
                (body ++ rest)))).drop (padLen off 4) =
              natToLE 4 body.length ++
              (padBytes (off + padLen off 4 + 4) elem.alignment ++
                (body ++ rest)) := List.drop_left' (padBytes_length off 4)
          have htakeA : (natToLE 4 body.length ++
              (padBytes (off + padLen off 4 + 4) elem.alignment ++
                (body ++ rest))).take 4 = natToLE 4 body.length :=
            List.take_left' (natToLE_length 4 body.length)
          have hdropB : (padBytes off 4 ++ (natToLE 4 body.length ++
              (padBytes (off + padLen off 4 + 4) elem.alignment ++
                (body ++ rest)))).drop
              (padLen off 4 + 4 +
                padLen (off + padLen off 4 + 4) elem.alignment) =
              body ++ rest := by
            rw [show padBytes off 4 ++ (natToLE 4 body.length ++
                (padBytes (off + padLen off 4 + 4) elem.alignment ++
                  (body ++ rest))) =
                (padBytes off 4 ++ natToLE 4 body.length ++
                  padBytes (off + padLen off 4 + 4) elem.alignment) ++
                (body ++ rest) by simp]
            exact List.drop_left'
              (by simp [padBytes_length, natToLE_length] <;> omega)
          have htakeB : (body ++ rest).take body.length = body :=
            List.take_left _ _
          have hcond1 : padLen off 4 + 4 ≤
              (padBytes off 4 ++ (natToLE 4 body.length ++
                (padBytes (off + padLen off 4 + 4) elem.alignment ++
                  (body ++ rest)))).length := by
            simp [List.length_append, padBytes_length, natToLE_length] <;>
              omega
          have hcond2 : padLen off 4 + 4 +
              padLen (off + padLen off 4 + 4) elem.alignment + body.length ≤
              (padBytes off 4 ++ (natToLE 4 body.length ++
                (padBytes (off + padLen off 4 + 4) elem.alignment ++
                  (body ++ rest)))).length := by
            simp [List.length_append, padBytes_length, natToLE_length] <;>
              omega
          have hpow : (2 : Nat) ^ 26 = 67108864 := by norm_num
          simp [decodeAt, List.append_assoc, hdropA, htakeA,
            leToNat_natToLE_of_lt hL32, hlt, hcond1, hcond2, hdropB, htakeB,
            ihb, List.length_append, padBytes_length, natToLE_length]
          omega
        · exact Option.noConfusion h
  case structT.structV fields vals =>
    simp only [encodeAt] at h
    split at h
    · exact Option.noConfusion h
    · cases heq : encodeFields fields vals (off + padLen off 8) with
      | none => simp only [heq] at h; exact Option.noConfusion h
      | some body =>
          simp only [heq] at h
          injection h with h2
          subst h2
          have ihb := encodeFields_decodeFields fields vals
            (off + padLen off 8) body heq rest
          have hdrop : (padBytes off 8 ++ (body ++ rest)).drop
              (padLen off 8) = body ++ rest :=
            List.drop_left' (padBytes_length off 8)
          simp [decodeAt, List.append_assoc, hdrop, ihb,
            List.length_append, padBytes_length]
  case dictEntryT.dictEntryV kt vt kv vv =>
    simp only [encodeAt] at h
    cases heq1 : encodeAt kt kv (off + padLen off 8) with
    | none => simp only [heq1] at h; exact Option.noConfusion h
    | some kb =>
        simp only [heq1] at h
        cases heq2 : encodeAt vt vv (off + padLen off 8 + kb.length) with
        | none => simp only [heq2] at h; exact Option.noConfusion h
        | some vb =>
            simp only [heq2] at h
            injection h with h2
            subst h2
            have ihk := encode_decode_roundTrip kt kv (off + padLen off 8)
              kb heq1 (vb ++ rest)
            have ihv := encode_decode_roundTrip vt vv
              (off + padLen off 8 + kb.length) vb heq2 rest
            have hdrop0 : (padBytes off 8 ++ (kb ++ (vb ++ rest))).drop
                (padLen off 8) = kb ++ (vb ++ rest) :=
              List.drop_left' (padBytes_length off 8)
            have hdrop1 : (kb ++ (vb ++ rest)).drop kb.length = vb ++ rest :=
              List.drop_left _ _
            simp [decodeAt, List.append_assoc, hdrop0, ihk, hdrop1, ihv,
              List.length_append, padBytes_length]
            omega

theorem encodeFields_decodeFields (ts : List DbusType) (vs : List DbusValue)
    (off : Nat) (out : List Nat) (h : encodeFields ts vs off = some out)
    (rest : List Nat) :
    decodeFields ts off (out ++ rest) = some (vs, out.length) := by
  cases ts with
  | nil =>
      cases vs with
      | nil =>
          simp only [encodeFields] at h
          injection h with h2
          subst h2
          simp [decodeFields]
      | cons v vs2 =>
          simp only [encodeFields] at h
          exact Option.noConfusion h
  | cons t ts2 =>
      cases vs with
      | nil =>
          simp only [encodeFields] at h
          exact Option.noConfusion h
      | cons v vs2 =>
          simp only [encodeFields] at h
          cases heq1 : encodeAt t v off with
          | none => simp only [heq1] at h; exact Option.noConfusion h
          | some b =>
              simp only [heq1] at h
              cases heq2 : encodeFields ts2 vs2 (off + b.length) with
              | none => simp only [heq2] at h; exact Option.noConfusion h
              | some bs =>
                  simp only [heq2] at h
                  injection h with h2
                  subst h2
                  have ih1 := encode_decode_roundTrip t v off b heq1
                    (bs ++ rest)
                  have ih2 := encodeFields_decodeFields ts2 vs2
                    (off + b.length) bs heq2 rest
                  have hdrop : (b ++ (bs ++ rest)).drop b.length =
                      bs ++ rest := List.drop_left _ _
                  simp [decodeFields, List.append_assoc, ih1, hdrop, ih2,
                    List.length_append]

theorem encodeElems_decodeElems (elem : DbusType) (vs : List DbusValue)
    (off : Nat) (out : List Nat) (h : encodeElems elem vs off = some out) :
    decodeElems elem off out = some (vs, out.length) := by
  cases vs with
  | nil =>
      simp only [encodeElems] at h
      injection h with h2
      subst h2
      simp [decodeElems]
  | cons v vs2 =>
      simp only [encodeElems] at h
      cases heq1 : encodeAt elem v off with
      | none => simp only [heq1] at h; exact Option.noConfusion h
      | some b =>
          simp only [heq1] at h
          cases heq2 : encodeElems elem vs2 (off + b.length) with
          | none => simp only [heq2] at h; exact Option.noConfusion h
          | some bs =>
              simp only [heq2] at h
              injection h with h2
              subst h2
              have hpos := encodeAt_length_pos elem v off b heq1
              cases hb : b with
              | nil => rw [hb] at hpos; simp at hpos
              | cons x xs =>
                  subst hb
                  have ih1 := encode_decode_roundTrip elem v off
                    (x :: xs) heq1 bs
                  have ih2 := encodeElems_decodeElems elem vs2
                    (off + (x :: xs).length) bs heq2
                  have hdrop : ((x :: xs) ++ bs).drop (x :: xs).length =
                      bs := List.drop_left _ _
                  simp only [List.cons_append] at ih1 hdrop
                  simp only [List.length_cons] at ih1 ih2 hdrop
                  simp [decodeElems, List.cons_append, ih1, hdrop, ih2,
                    List.length_append, List.length_cons]
                  omega

end

/-! ## Claim theorems -/

/-- Claim C1, counterexample: for the empty error name the factory
does not return an error object at all; the base-class constructor
evaluates the missing error_name attribute and raises
AttributeError, which propagates out of raise_on_error in place of
a method error. -/
theorem claim_C1_counterexample :
    DbusMethodError.create "" none = Except.error PyError.attributeError ∧
    SdBus.raise_on_error (some ("", none)) =
      RaiseOnErrorResult.raisedPyError PyError.attributeError := by
  exact ⟨rfl, rfl⟩

/-- Claim C1 (amended): for every nonempty error name, the factory
returns an error object whose error_name is the given name and
whose error_message is the given message, using the registered
subclass for that name when one exists and the generic class
otherwise, and raise_on_error raises exactly that object when the
reply carries that error. -/
theorem claim_C1 (name : String) (message : Option String)
    (h : name ≠ "") :
    ∃ e : DbusMethodError,
      DbusMethodError.create name message = Except.ok e ∧
      e.error_name = name ∧
      e.error_message = message ∧
      e.registeredClass =
        (if name ∈ registeredErrorNames then some name else none) ∧
      SdBus.raise_on_error (some (name, message)) =
        RaiseOnErrorResult.raisedMethodError e := by
  cases hfind : registeredErrorNames.find? (fun r => r == name) with
  | some r =>
      have hr : r = name := by
        have hp := List.find?_some hfind
        simpa using hp
      subst hr
      have hmem : r ∈ registeredErrorNames :=
        List.mem_of_find?_eq_some hfind
      refine ⟨⟨some r, r, message⟩, ?_, rfl, rfl, ?_, ?_⟩
      · simp [DbusMethodError.create, hfind, h]
      · rw [if_pos hmem]
      · simp [SdBus.raise_on_error, DbusMethodError.create, hfind, h]
  | none =>
      have hmem : name ∉ registeredErrorNames := by
        intro hm
        have hsome : (registeredErrorNames.find?
            (fun r => r == name)).isSome := by
          rw [List.find?_isSome]
          exact ⟨name, hm, by simp⟩
        rw [hfind] at hsome
        simp at hsome
      refine ⟨⟨none, name, message⟩, ?_, rfl, rfl, ?_, ?_⟩
      · simp [DbusMethodError.create, hfind, h]
      · rw [if_neg hmem]
      · simp [SdBus.raise_on_error, DbusMethodError.create, hfind, h]

/-- Claim C1, witness: instantiation at a registered name. -/
theorem claim_C1_witness :
    ∃ e : DbusMethodError,
      DbusMethodError.create "org.freedesktop.DBus.Error.Failed"
          (some "boom") = Except.ok e ∧
      e.error_name = "org.freedesktop.DBus.Error.Failed" ∧
      e.error_message = some "boom" ∧
      e.registeredClass =
        (if "org.freedesktop.DBus.Error.Failed" ∈ registeredErrorNames
          then some "org.freedesktop.DBus.Error.Failed" else none) ∧
      SdBus.raise_on_error
          (some ("org.freedesktop.DBus.Error.Failed", some "boom")) =
        RaiseOnErrorResult.raisedMethodError e :=
  claim_C1 "org.freedesktop.DBus.Error.Failed" (some "boom") (by decide)

/-- Claim C2: with no_reply the call clears expect_reply, sends
immediately after, returns the empty tuple and never awaits a
reply; without no_reply the call awaits the reply, leaves
expect_reply untouched, does not send directly, returns the reply
contents when no error is present, and never returns contents when
the reply carries an error. -/
theorem claim_C2 (α : Type) (hasArgs no_reply : Bool)
    (reply : ReplyMessage α) :
    (no_reply = true →
      (SdBus.call_method hasArgs no_reply reply).1 =
        CallAction.newMethodCallMessage ::
          ((if hasArgs then [CallAction.appendData] else []) ++
            [CallAction.setExpectReplyFalse, CallAction.send]) ∧
      CallAction.awaitReply ∉ (SdBus.call_method hasArgs no_reply reply).1 ∧
      (SdBus.call_method hasArgs no_reply reply).2 =
        CallOutcome.returned []) ∧
    (no_reply = false →
      CallAction.awaitReply ∈ (SdBus.call_method hasArgs no_reply reply).1 ∧
      CallAction.setExpectReplyFalse ∉
        (SdBus.call_method hasArgs no_reply reply).1 ∧
      CallAction.send ∉ (SdBus.call_method hasArgs no_reply reply).1 ∧
      (reply.error = none →
        (SdBus.call_method hasArgs no_reply reply).2 =
          CallOutcome.returned reply.contents) ∧
      (∀ name message, reply.error = some (name, message) →
        ∀ vs, (SdBus.call_method hasArgs no_reply reply).2 ≠
          CallOutcome.returned vs)) := by
  constructor
  · intro hnr
    subst hnr
    refine ⟨rfl, ?_, rfl⟩
    cases hasArgs <;> simp [SdBus.call_method]
  · intro hnr
    subst hnr
    refine ⟨?_, ?_, ?_, ?_, ?_⟩
    · cases hasArgs <;> simp [SdBus.call_method]
    · cases hasArgs <;> simp [SdBus.call_method]
    · cases hasArgs <;> simp [SdBus.call_method]
    · intro he
      simp [SdBus.call_method, SdBus.raise_on_error, he]
    · intro name message he vs
      simp only [SdBus.call_method, SdBus.raise_on_error, he]
      cases hc : DbusMethodError.create name message <;> simp

/-- Claim C2, witness: both branches at concrete inputs. -/
theorem claim_C2_witness :
    (SdBus.call_method true true
        (⟨none, [5]⟩ : ReplyMessage Nat)).2 = CallOutcome.returned [] ∧
    CallAction.awaitReply ∈
      (SdBus.call_method true false
        (⟨some ("com.example.E", none), [5]⟩ : ReplyMessage Nat)).1 :=
  ⟨((claim_C2 Nat true true ⟨none, [5]⟩).1 rfl).2.2,
   ((claim_C2 Nat true false ⟨some ("com.example.E", none), [5]⟩).2 rfl).1⟩

/-- Claim C3, counterexample: an intentional MethodCallError raised
by a method callback when the caller requested no reply is dropped
by the handler with no log entry and no reply: an error silently
swallowed inside the inbound dispatch path. -/
theorem claim_C3_counterexample :
    (SdBusInterfaceBuilder.method_handler false
        (Except.error (HandlerExc.methodCallError "com.example.Oops" none))
        false).logged = none ∧
    (SdBusInterfaceBuilder.method_handler false
        (Except.error (HandlerExc.methodCallError "com.example.Oops" none))
        false).sentReply = none :=
  ⟨rfl, rfl⟩

/-- Claim C3 (amended): an exception raised while delivering a
signal to a subscriber callback is logged and suppressed, never
re-raised; a method-callback exception is answered with an error
reply whenever a reply is expected, and is logged whenever it is
not an intentional MethodCallError; the one case dropped without a
trace is an intentional MethodCallError when no reply is
expected. -/
theorem claim_C3 (e : HandlerExc) (expectReply b : Bool) :
    (SdBus.signal_handler (Except.error e)).logged = some e ∧
    (SdBus.signal_handler (Except.error e)).raised = none ∧
    (SdBus.signal_handler (Except.ok ())).logged = none ∧
    (SdBusInterfaceBuilder.method_handler true (Except.error e) b).sentReply =
      some (SentReply.errorReply e.replyName e.replyMessage) ∧
    (e.isMethodCallError = false →
      (SdBusInterfaceBuilder.method_handler expectReply
        (Except.error e) b).logged = some e) := by
  refine ⟨rfl, rfl, rfl, ?_, ?_⟩
  · simp [SdBusInterfaceBuilder.method_handler]
  · intro hmc
    cases expectReply <;>
      simp [SdBusInterfaceBuilder.method_handler, hmc]

/-- Claim C3, witness: instantiation at an ordinary exception. -/
theorem claim_C3_witness :
    (SdBusInterfaceBuilder.method_handler false
        (Except.error (HandlerExc.otherExc "boom")) false).logged =
      some (HandlerExc.otherExc "boom") :=
  (claim_C3 (HandlerExc.otherExc "boom") false false).2.2.2.2 rfl

/-- Claim C4: a tuple result is appended as multiple top-level
values under the result signature; when that raises TypeError the
handler falls back to appending the whole tuple as one single
struct value; a non-tuple non-None result is appended as a single
value; a None result appends nothing; and the method handler sends
exactly that appended reply on callback success when a reply is
expected. -/
theorem claim_C4 (elems : List PyValue) (tag : String) (b : Bool)
    (data : Option PyValue) :
    appendReplyData (some (PyValue.tupleV elems)) true =
      some (ReplyAppend.appendedOne (PyValue.tupleV elems)) ∧
    appendReplyData (some (PyValue.tupleV elems)) false =
      some (ReplyAppend.appendedMany elems) ∧
    appendReplyData (some (PyValue.atomV tag)) b =
      some (ReplyAppend.appendedOne (PyValue.atomV tag)) ∧
    appendReplyData none b = none ∧
    (SdBusInterfaceBuilder.method_handler true (Except.ok data) b).sentReply =
      some (SentReply.normal (appendReplyData data b)) := by
  refine ⟨rfl, rfl, ?_, rfl, rfl⟩
  cases b <;> rfl

/-- Claim C5: for every supported type and every value it encodes,
decoding the bytes produced by encode (followed by any trailing
bytes) at the same offset yields the original value, and the
number of bytes consumed by decode equals the number of bytes
produced by encode. -/
theorem claim_C5 (t : DbusType) (v : DbusValue) (off : Nat)
    (out : List Nat) (h : encodeAt t v off = some out) (rest : List Nat) :
    decodeAt t off (out ++ rest) = some (v, out.length) :=
  encode_decode_roundTrip t v off out h rest

/-- Claim C5, witness: the string value of two bytes encodes to a
seven byte buffer and decodes back, consuming exactly seven
bytes. -/
theorem claim_C5_witness :
    encodeAt DbusType.stringT (DbusValue.stringV [104, 105]) 0 =
      some [2, 0, 0, 0, 104, 105, 0] ∧
    decodeAt DbusType.stringT 0 ([2, 0, 0, 0, 104, 105, 0] ++ [9, 9]) =
      some (DbusValue.stringV [104, 105],
        ([2, 0, 0, 0, 104, 105, 0] : List Nat).length) :=
  ⟨rfl, claim_C5 DbusType.stringT (DbusValue.stringV [104, 105]) 0
    [2, 0, 0, 0, 104, 105, 0] rfl [9, 9]⟩

/-- Claim C6: a subscription receives exactly the signals matching
all of its set filters; absent filters match anything, so a rule
with all four filters unset matches every signal; a rule filtering
on org.example.Foo matches a Foo signal and not a Bar signal, and
dispatch delivers the Bar signal only to the unfiltered
subscriber. -/
theorem claim_C6 (r : MatchRule) (m : SignalMessageMeta) :
    (r.matchesSignal m = true ↔
      ((r.sender_filter = none ∨ r.sender_filter = some m.sender) ∧
       (r.path_filter = none ∨ r.path_filter = some m.path) ∧
       (r.interface_filter = none ∨
         r.interface_filter = some m.interface) ∧
       (r.member_filter = none ∨ r.member_filter = some m.member))) ∧
    (MatchRule.mk none none none none).matchesSignal m = true ∧
    (MatchRule.mk none none (some "org.example.Foo") none).matchesSignal
      ⟨m.sender, m.path, "org.example.Foo", m.member⟩ = true ∧
    (MatchRule.mk none none (some "org.example.Foo") none).matchesSignal
      ⟨m.sender, m.path, "org.example.Bar", m.member⟩ = false ∧
    dispatchSignal
      [(MatchRule.mk none none (some "org.example.Foo") none, 1),
       (MatchRule.mk none none none none, 2)]
      ⟨m.sender, m.path, "org.example.Bar", m.member⟩ = [2] := by
  obtain ⟨sf, pf, itf, mf⟩ := r
  refine ⟨?_, ?_, ?_, ?_, ?_⟩
  · cases sf <;> cases pf <;> cases itf <;> cases mf <;>
      (simp [MatchRule.matchesSignal, fieldMatches, beq_iff_eq]; try tauto)
  · rfl
  · simp [MatchRule.matchesSignal, fieldMatches]
  · simp [MatchRule.matchesSignal, fieldMatches]
  · simp [dispatchSignal, MatchRule.matchesSignal, fieldMatches]

/-- Claim C7: while the with-current-message context manager runs a
handler body, get_current_message returns exactly the message being
handled; when the body finishes, normally or by raising, the
context variable is reset to its previous state, so no handler
execution changes the ambient current message. -/
theorem claim_C7 (μ ε α : Type) (m : μ) (body : Option μ → Except ε α)
    (s0 : Option μ) :
    (set_current_message_run m body s0).2 = s0 ∧
    (set_current_message_run m body s0).1 = body (some m) ∧
    get_current_message (contextVarSet s0 m).2 = Except.ok m :=
  ⟨rfl, rfl, rfl⟩

/-- Claim C8: request_name returns normally exactly when the reply
result code is 1; code 2 raises the in-queue error, 3 the
name-exists error, 4 the already-owner error; any other code and a
failure of the underlying call raise a generic D-Bus error. -/
theorem claim_C8 (n : Nat) (e : String) :
    (SdBus.request_name_outcome (Except.ok n) = Except.ok () ↔ n = 1) ∧
    SdBus.request_name_outcome (Except.ok 2) =
      Except.error RequestNameError.nameInQueue ∧
    SdBus.request_name_outcome (Except.ok 3) =
      Except.error RequestNameError.nameExists ∧
    SdBus.request_name_outcome (Except.ok 4) =
      Except.error RequestNameError.alreadyOwner ∧
    (n ≠ 1 → n ≠ 2 → n ≠ 3 → n ≠ 4 →
      SdBus.request_name_outcome (Except.ok n) =
        Except.error (RequestNameError.dbusError
          ("Unknown result code: " ++ toString n))) ∧
    SdBus.request_name_outcome (Except.error e) =
      Except.error (RequestNameError.dbusError e) := by
  refine ⟨?_, rfl, rfl, rfl, ?_, rfl⟩
  · constructor
    · intro h
      by_contra h1
      simp only [SdBus.request_name_outcome, h1] at h
      split_ifs at h <;> simp_all
    · intro h
      subst h
      rfl
  · intro h1 h2 h3 h4
    simp [SdBus.request_name_outcome, h1, h2, h3, h4]

/-- Claim C8, witness: instantiation at an unknown result code. -/
theorem claim_C8_witness :
    SdBus.request_name_outcome (Except.ok 7) =
      Except.error (RequestNameError.dbusError
        ("Unknown result code: " ++ toString 7)) :=
  (claim_C8 7 "x").2.2.2.2.1 (by decide) (by decide) (by decide) (by decide)

/-- Claim C9: export_to_dbus raises RuntimeError on a remote proxy
and on an object that already has an attached bus; on success it
records the bus (or the default bus) and the serving object path in
the local metadata; and a successfully exported object can never be
exported again, so the exported state is entered at most once. -/
theorem claim_C9 (β : Type) (m : DbusLocalObjectMeta β)
    (st st1 : ObjectDbusMeta β) (path path2 : String)
    (bus bus2 : Option β) (dflt dflt2 : β) :
    DbusInterface.export_to_dbus (ObjectDbusMeta.remoteMeta) path bus dflt =
      Except.error (PyError.runtimeError "Cannot export D-Bus proxies.") ∧
    (∀ b0, m.attached_bus = some b0 →
      DbusInterface.export_to_dbus (ObjectDbusMeta.localMeta m)
          path bus dflt =
        Except.error (PyError.runtimeError "Object already exported.")) ∧
    (m.attached_bus = none →
      DbusInterface.export_to_dbus (ObjectDbusMeta.localMeta m)
          path bus dflt =
        Except.ok (ObjectDbusMeta.localMeta
          ⟨some (bus.getD dflt), some path⟩)) ∧
    (DbusInterface.export_to_dbus st path bus dflt = Except.ok st1 →
      DbusInterface.export_to_dbus st1 path2 bus2 dflt2 =
        Except.error (PyError.runtimeError "Object already exported.")) := by
  refine ⟨rfl, ?_, ?_, ?_⟩
  · intro b0 hb
    simp [DbusInterface.export_to_dbus, hb]
  · intro hb
    simp [DbusInterface.export_to_dbus, hb]
  · intro hok
    cases st with
    | remoteMeta => simp [DbusInterface.export_to_dbus] at hok
    | localMeta m2 =>
        by_cases hb : m2.attached_bus.isSome
        · simp [DbusInterface.export_to_dbus, hb] at hok
        · simp [DbusInterface.export_to_dbus, hb] at hok
          subst hok
          simp [DbusInterface.export_to_dbus]

/-- Claim C9, witness: a second export of an exported object
fails. -/
theorem claim_C9_witness :
    DbusInterface.export_to_dbus
        (ObjectDbusMeta.localMeta
          (⟨some 5, some "/p"⟩ : DbusLocalObjectMeta Nat))
        "/q" none 0 =
      Except.error (PyError.runtimeError "Object already exported.") :=
  (claim_C9 Nat ⟨some 5, some "/p"⟩ ObjectDbusMeta.remoteMeta
    ObjectDbusMeta.remoteMeta "/q" "/q" none none 0 0).2.1 5 rfl

/-- Claim C10: creating an interface class whose name is already
registered raises ValueError before anything else; a successful
creation with an interface name prepends exactly that binding to
the registry, and the name was free beforehand; a creation without
an interface name registers nothing; and registration of a fresh
class under a fresh name keeps the registry one-to-one. -/
theorem claim_C10 (registry : InterfaceRegistry) (n : String)
    (mc : Bool) (cls : Nat) :
    ((List.find? (fun e => e.1 == n) registry).isSome = true →
      DbusInterfaceMeta.new registry (some n) mc cls =
        Except.error PyError.valueError) ∧
    (∀ r2, DbusInterfaceMeta.new registry (some n) mc cls =
        Except.ok r2 →
      r2 = (n, cls) :: registry ∧
        List.find? (fun e => e.1 == n) registry = none) ∧
    (DbusInterfaceMeta.new registry none mc cls = Except.ok registry ∨
      DbusInterfaceMeta.new registry none mc cls =
        Except.error PyError.typeError) ∧
    (∀ r2, registryOneToOne registry →
      cls ∉ List.map Prod.snd registry →
      DbusInterfaceMeta.new registry (some n) mc cls = Except.ok r2 →
      registryOneToOne r2) := by
  refine ⟨?_, ?_, ?_, ?_⟩
  · intro hfound
    simp [DbusInterfaceMeta.new, hfound]
  · intro r2 hok
    cases hfind : List.find? (fun e => e.1 == n) registry with
    | some p => simp [DbusInterfaceMeta.new, hfind] at hok
    | none =>
        cases mc with
        | false => simp [DbusInterfaceMeta.new, hfind] at hok
        | true =>
            simp [DbusInterfaceMeta.new, hfind] at hok
            exact ⟨hok.symm, rfl⟩
  · cases mc with
    | false => right; rfl
    | true => left; rfl
  · intro r2 hone hfresh hok
    cases hfind : List.find? (fun e => e.1 == n) registry with
    | some p => simp [DbusInterfaceMeta.new, hfind] at hok
    | none =>
        cases mc with
        | false => simp [DbusInterfaceMeta.new, hfind] at hok
        | true =>
            simp [DbusInterfaceMeta.new, hfind] at hok
            subst hok
            have hnmem : n ∉ List.map Prod.fst registry := by
              intro hm
              obtain ⟨p, hp, hpeq⟩ := List.mem_map.mp hm
              have := List.find?_eq_none.mp hfind p hp
              simp [hpeq] at this
            exact ⟨List.Nodup.cons hnmem hone.1,
              List.Nodup.cons hfresh hone.2⟩

/-- Claim C10, witness: registering a fresh name in a one-to-one
registry succeeds and preserves one-to-one-ness. -/
theorem claim_C10_witness :
    registryOneToOne [("com.example.B", 1), ("com.example.A", 0)] :=
  (claim_C10 [("com.example.A", 0)] "com.example.B" true 1).2.2.2
    [("com.example.B", 1), ("com.example.A", 0)]
    (by constructor <;> decide) (by decide) rfl
